import Mathlib

/-!
Verification of the scripe-standalone lead-search pipeline specification
against the repository. The frontend pages (NewSearchPage, SearchesPage,
SearchResultsPage, App routing) are embedded from the TypeScript source;
the backend pipeline (run controller, credit ledger, deduplication engine,
quality scorer) is not part of the provided sources, so those components
are modelled from the specification text, as marked on each definition.
-/

namespace Scripe

/-- Run status enumeration, embedded from the `status` union type of
`SearchItem` in SearchesPage.tsx and the spec's five-state run machine. -/
inductive RunStatus where
  | pending
  | running
  | completed
  | failed
  | cancelled
deriving DecidableEq, Repr, Fintype

/-- String form of a run status as it appears on the wire and in the
client's `statusConfig` keys. -/
def runStatusString : RunStatus → String
  | .pending => "pending"
  | .running => "running"
  | .completed => "completed"
  | .failed => "failed"
  | .cancelled => "cancelled"

/-- Terminal statuses of a run: completed, failed, cancelled. -/
def isTerminal : RunStatus → Bool
  | .completed => true
  | .failed => true
  | .cancelled => true
  | _ => false

/-- Events driving the run state machine, from spec section 4.5. -/
inductive RunEvent where
  | start
  | complete
  | fail
  | cancel
deriving DecidableEq, Repr, Fintype

/-- Modelled from the spec: the run controller's transition function,
`pending -> running -> (completed | failed | cancelled)`, with no
transition out of a terminal state (spec section 4.5; the controller
itself is a backend module absent from the provided sources). -/
def step : RunStatus → RunEvent → Option RunStatus
  | .pending, .start => some .running
  | .running, .complete => some .completed
  | .running, .fail => some .failed
  | .running, .cancel => some .cancelled
  | _, _ => none

/-- Entry of the client's `statusConfig` record in SearchesPage.tsx:
i18n label key and color classes. -/
structure StatusEntry where
  label : String
  color : String
deriving DecidableEq, Repr

/-- The `statusConfig` record of SearchesPage.tsx, embedded with its keys
in source order and its label keys and color class strings. -/
def statusConfig : List (String × StatusEntry) :=
  [("pending", ⟨"status.pending", "text-gray-500 bg-gray-100"⟩),
   ("running", ⟨"status.running", "text-blue-500 bg-blue-100"⟩),
   ("completed", ⟨"status.completed", "text-green-500 bg-green-100"⟩),
   ("failed", ⟨"status.failed", "text-red-500 bg-red-100"⟩),
   ("cancelled", ⟨"status.cancelled", "text-orange-500 bg-orange-100"⟩)]

/-- Search cost estimate as delivered to the client, embedded from the
`SearchEstimate` interface of NewSearchPage.tsx. -/
structure SearchEstimate where
  estimated_results : Int
  estimated_available : Int
  estimated_time_seconds : Int
  estimated_credits : Int
  sources : List String
  quality_tier : String
deriving DecidableEq, Repr

/-- Acting user as seen by `handleCreate` (only the credit balance is
consulted there). -/
structure UserInfo where
  credits_balance : Int
deriving DecidableEq, Repr

/-- Synchronous outcome of `handleCreate` in NewSearchPage.tsx: an early
return when no estimate exists, the insufficient-credits guard, or
submission of the search-creation and run-start requests. -/
inductive CreateOutcome where
  | noEstimate
  | insufficientCredits
  | submitted
deriving DecidableEq, Repr

/-- Credit balance consulted by `handleCreate`: the acting user's
balance, zero when no user is present, as `user?.credits_balance ?? 0`. -/
def creditsOf : Option UserInfo → Int
  | some u => u.credits_balance
  | none => 0

/-- The guard logic of `handleCreate` in NewSearchPage.tsx: it returns
immediately without estimate, sets the insufficient-credits error when
the balance (0 for a missing user) is strictly below the estimated
credits, and otherwise proceeds to issue the two requests. -/
def handleCreate (estimate : Option SearchEstimate) (user : Option UserInfo) :
    CreateOutcome :=
  match estimate with
  | none => .noEstimate
  | some est =>
    if creditsOf user < est.estimated_credits then .insufficientCredits
    else .submitted

/-- API requests issued by `handleCreate` for each outcome: only the
submitted branch reaches `api.post` for search creation and run start. -/
def createRequests : CreateOutcome → List String
  | .submitted => ["POST /searches", "POST /searches/:id/run"]
  | _ => []

/-- Error message key set by `handleCreate` for each outcome. -/
def createError : CreateOutcome → Option String
  | .insufficientCredits => some "newSearch.errors.insufficientCredits"
  | _ => none

/-- Kind of a credit ledger entry, from the spec's CreditTransaction
data model. -/
inductive TxKind where
  | purchase
  | search
  | refund
  | bonus
deriving DecidableEq, Repr

/-- Modelled from the spec: an append-only credit ledger entry (signed
amount, resulting balance, kind); the ledger service is a backend
collaborator absent from the provided sources. -/
structure CreditTransaction where
  amount : Int
  balance_after : Int
  kind : TxKind
deriving DecidableEq, Repr

/-- Modelled from the spec: the state relevant to the start-run boundary
of one Search - its runs, the user's balance, and the ledger entries;
the run controller is a backend module absent from the provided sources. -/
structure PipelineState where
  runs : List RunStatus
  balance : Int
  ledger : List CreditTransaction
deriving DecidableEq, Repr

/-- Reasons for which `start run` is refused synchronously (spec
section 7, capacity errors). -/
inductive StartError where
  | insufficientCredits
  | alreadyRunning
deriving DecidableEq, Repr

/-- Result of the start-run boundary. -/
inductive StartOutcome where
  | started
  | rejected (e : StartError)
deriving DecidableEq, Repr

/-- Modelled from the spec: the `start run` operation (spec sections 4.5,
6, 7). It refuses with an insufficient-credit error when the balance is
strictly below the reservation cost, refuses when a run is already
running for the Search, and otherwise reserves the credits and creates a
running Run; on refusal the state is returned unchanged, so no Run
record is created and no debit occurs. -/
def startRunOp (s : PipelineState) (cost : Int) : StartOutcome × PipelineState :=
  if s.balance < cost then (.rejected .insufficientCredits, s)
  else if s.runs.contains .running then (.rejected .alreadyRunning, s)
  else
    (.started,
     { runs := s.runs ++ [.running],
       balance := s.balance - cost,
       ledger := s.ledger ++ [⟨-cost, s.balance - cost, .search⟩] })

/-- Modelled from the spec: one raw observation of a business from one
source connector (spec data model, CandidateRecord); the connectors are
backend modules absent from the provided sources. Phone values are the
E.164-canonical forms and websites the normalized domains produced by
the extraction utilities. -/
structure CandidateRecord where
  name : String
  phone : Option String
  email : Option String
  website : Option String
  address_line : Option String
  city : Option String
  region : Option String
  country : Option String
  category : Option String
  description : Option String
  source : String
deriving DecidableEq, Repr

/-- Merged lead record, with the canonical fields, validation flags,
alternative phones and source corroboration of the `Lead` interface in
SearchResultsPage.tsx and the spec's LeadRecord data model (the dedup
engine producing it is a backend module absent from the provided
sources). -/
structure LeadRecord where
  name : String
  phone : Option String
  alternative_phones : List String
  email : Option String
  website : Option String
  address_line : Option String
  city : Option String
  region : Option String
  country : Option String
  category : Option String
  description : Option String
  phone_validated : Option Bool
  email_validated : Option Bool
  website_validated : Option Bool
  sources : List String
  sources_count : Nat
deriving DecidableEq, Repr

/-- ASCII lower-casing of one character. -/
def lowerChar (c : Char) : Char :=
  if 65 ≤ c.toNat ∧ c.toNat ≤ 90 then Char.ofNat (c.toNat + 32) else c

/-- Case normalization applied to names, cities and domains before key
comparison (the spec asks for case/diacritic/punctuation-insensitive
comparison; the model normalizes ASCII case). -/
def normToken (s : String) : String := String.mk (s.data.map lowerChar)

/-- Match key 1 of the dedup engine: normalized website domain equality,
defined only when both sides carry a website. -/
def websiteMatch (l : LeadRecord) (c : CandidateRecord) : Bool :=
  match l.website, c.website with
  | some a, some b => normToken a == normToken b
  | _, _ => false

/-- Match key 2 of the dedup engine: E.164-canonical phone equality,
defined only when both sides carry a phone. -/
def phoneMatch (l : LeadRecord) (c : CandidateRecord) : Bool :=
  match l.phone, c.phone with
  | some a, some b => a == b
  | _, _ => false

/-- Match key 3 of the dedup engine: normalized-name plus city equality,
defined only when both sides carry a city. -/
def nameCityMatch (l : LeadRecord) (c : CandidateRecord) : Bool :=
  match l.city, c.city with
  | some a, some b => (normToken l.name == normToken c.name) && (normToken a == normToken b)
  | _, _ => false

/-- Disjunction of the three dedup match keys. -/
def leadMatches (l : LeadRecord) (c : CandidateRecord) : Bool :=
  websiteMatch l c || phoneMatch l c || nameCityMatch l c

/-- Modelled from the spec: a fresh LeadRecord created directly from a
candidate when no existing lead matches (spec section 4.2). -/
def newLead (c : CandidateRecord) : LeadRecord :=
  { name := c.name, phone := c.phone, alternative_phones := [],
    email := c.email, website := c.website, address_line := c.address_line,
    city := c.city, region := c.region, country := c.country,
    category := c.category, description := c.description,
    phone_validated := none, email_validated := none,
    website_validated := none, sources := [c.source], sources_count := 1 }

/-- Fill-only-if-empty policy for an optional scalar field: a populated
field is never overwritten by a later candidate's value. -/
def fillIfEmpty (cur incoming : Option String) : Option String :=
  match cur with
  | some v => some v
  | none => incoming

/-- Modelled from the spec: merging one candidate into an existing
LeadRecord (spec section 4.2): scalar fields follow fill-only-if-empty,
an extra phone accumulates into `alternative_phones` without duplicates,
and `sources_count` increments once per distinct contributing source. -/
def mergeInto (l : LeadRecord) (c : CandidateRecord) : LeadRecord :=
  let sources := if l.sources.contains c.source then l.sources
                 else l.sources ++ [c.source]
  { name := if l.name == "" then c.name else l.name,
    phone := fillIfEmpty l.phone c.phone,
    alternative_phones :=
      match l.phone, c.phone with
      | some p, some q =>
          if q ≠ p ∧ ¬ l.alternative_phones.contains q
          then l.alternative_phones ++ [q]
          else l.alternative_phones
      | _, _ => l.alternative_phones,
    email := fillIfEmpty l.email c.email,
    website := fillIfEmpty l.website c.website,
    address_line := fillIfEmpty l.address_line c.address_line,
    city := fillIfEmpty l.city c.city,
    region := fillIfEmpty l.region c.region,
    country := fillIfEmpty l.country c.country,
    category := fillIfEmpty l.category c.category,
    description := fillIfEmpty l.description c.description,
    phone_validated := l.phone_validated,
    email_validated := l.email_validated,
    website_validated := l.website_validated,
    sources := sources,
    sources_count := sources.length }

/-- Merge a candidate into the first lead of the list satisfying the
predicate, returning none when no lead satisfies it. -/
def mergeFirst (p : LeadRecord → Bool) (c : CandidateRecord) :
    List LeadRecord → Option (List LeadRecord)
  | [] => none
  | l :: ls =>
      if p l then some (mergeInto l c :: ls)
      else (mergeFirst p c ls).map (l :: ·)

/-- Modelled from the spec: one streaming step of the dedup engine
(spec section 4.2). The three match keys are tried in precedence order -
website domain, then phone, then name plus city - and the first match
wins; with no match a new LeadRecord is appended. -/
def dedupStep (leads : List LeadRecord) (c : CandidateRecord) :
    List LeadRecord :=
  match mergeFirst (websiteMatch · c) c leads with
  | some r => r
  | none =>
    match mergeFirst (phoneMatch · c) c leads with
    | some r => r
    | none =>
      match mergeFirst (nameCityMatch · c) c leads with
      | some r => r
      | none => leads ++ [newLead c]

/-- Modelled from the spec: the dedup engine folding a candidate stream
into LeadRecords, processing candidates incrementally in arrival order
(spec section 4.2). -/
def dedup (cs : List CandidateRecord) : List LeadRecord :=
  cs.foldl dedupStep []

/-- Canonical identity of a LeadRecord, used to compare the lead sets
produced from two candidate orderings. -/
def canonicalId (l : LeadRecord) :
    String × Option String × Option String × Option String :=
  (l.name, l.city, l.phone, l.website)

/-- Two lead lists represent the same set of leads by canonical
identity. -/
def sameLeadSet (xs ys : List LeadRecord) : Bool :=
  let a := xs.map canonicalId
  let b := ys.map canonicalId
  a.all (b.contains ·) && b.all (a.contains ·)

/-- Candidate-level match: whether a lead freshly created from `a`
matches candidate `b` on any dedup key. -/
def candMatch (a b : CandidateRecord) : Bool :=
  leadMatches (newLead a) b

/-- A candidate list in which no two distinct candidates match on any
dedup key, in either direction. -/
def pairwiseUnmatched (cs : List CandidateRecord) : Prop :=
  List.Pairwise (fun a b => candMatch a b = false ∧ candMatch b a = false) cs

/-- Modelled from the spec: terminal credit reconciliation (spec
section 4.5). Completion and cancellation debit the cost of the leads
actually delivered, capped by the reservation, and refund the remainder;
failure refunds the full reservation with no debit. Non-terminal states
reconcile nothing. -/
def reconcile (reserved perLeadCost delivered : Nat) :
    RunStatus → Option (Nat × Nat)
  | .completed =>
      let deb := min (delivered * perLeadCost) reserved
      some (deb, reserved - deb)
  | .cancelled =>
      let deb := min (delivered * perLeadCost) reserved
      some (deb, reserved - deb)
  | .failed => some (0, reserved)
  | _ => none

/-- Quality tier enumeration, from the spec data model and the
`QualityTier` union type of NewSearchPage.tsx. -/
inductive QualityTier where
  | basic
  | standard
  | premium
deriving DecidableEq, Repr, Fintype

/-- Search criteria relevant to scoring, from the spec's SearchRequest
data model. -/
structure SearchRequest where
  categories : List String
  keywords_include : List String
  keywords_exclude : List String
  cities : List String
  country : String
  target_count : Nat
  quality_tier : QualityTier
deriving DecidableEq, Repr

/-- Weight contributed by one field when present, zero otherwise. -/
def presentWeight (present : Bool) (w : ℚ) : ℚ :=
  if present then w else 0

/-- Modelled from the spec: the completeness sub-score (spec section
4.4), a weighted presence of the fields name, phone, email, website,
address, city, category and description, normalized to the unit
interval; the scorer is a backend module absent from the provided
sources and the sub-weights are the reference defaults. -/
def completeness (l : LeadRecord) : ℚ :=
  (presentWeight (l.name != "") 20 + presentWeight l.phone.isSome 20 +
   presentWeight l.email.isSome 15 + presentWeight l.website.isSome 15 +
   presentWeight l.address_line.isSome 10 + presentWeight l.city.isSome 10 +
   presentWeight l.category.isSome 5 + presentWeight l.description.isSome 5) / 100

/-- Value of one validation flag: validated-true scores highest,
validated-false stays nonzero, and an unvalidated field (network error
during a check) sits between the two (spec section 4.3). -/
def flagScore : Option Bool → ℚ
  | some true => 1
  | some false => 1 / 4
  | none => 1 / 2

/-- Validation flags applicable at a quality tier: phone and email
format checks run at every tier, the website check from standard up
(spec section 4.3). -/
def applicableFlags (l : LeadRecord) : QualityTier → List (Option Bool)
  | .basic => [l.phone_validated, l.email_validated]
  | .standard => [l.phone_validated, l.email_validated, l.website_validated]
  | .premium => [l.phone_validated, l.email_validated, l.website_validated]

/-- Modelled from the spec: the validation sub-score (spec section 4.4),
the average of the flags applicable at the active tier; fields not
checked at the tier are excluded from the denominator. -/
def validationScore (l : LeadRecord) (tier : QualityTier) : ℚ :=
  ((applicableFlags l tier).map flagScore).sum / (applicableFlags l tier).length

/-- Modelled from the spec: the source-corroboration sub-score (spec
section 4.4), monotone and saturating in `sources_count`, reaching its
maximum at four corroborating sources. -/
def corroborationScore (n : Nat) : ℚ :=
  ((min n 4 : Nat) : ℚ) / 4

/-- Terms a lead offers for query matching: its category, when present,
and its name, case-normalized. -/
def leadTerms (l : LeadRecord) : List String :=
  (match l.category with
   | some c => [normToken c]
   | none => []) ++ [normToken l.name]

/-- Modelled from the spec: the query-match sub-score (spec section
4.4), the fraction of the request's categories and include-keywords the
lead matches; any exclude-keyword hit forces the score to zero. -/
def queryMatchScore (l : LeadRecord) (req : SearchRequest) : ℚ :=
  let lt := leadTerms l
  if req.keywords_exclude.any (fun k => lt.contains (normToken k)) then 0
  else
    let qs := (req.categories ++ req.keywords_include).map normToken
    ((qs.filter (lt.contains ·)).length : ℚ) / ((max 1 qs.length : Nat) : ℚ)

/-- Modelled from the spec: the quality scorer (spec section 4.4), the
fixed-weight combination of completeness (0.35), validation (0.30),
source corroboration (0.20) and query match (0.15), on a 0-100 scale. -/
def score (l : LeadRecord) (req : SearchRequest) : ℚ :=
  35 * completeness l + 30 * validationScore l req.quality_tier +
    20 * corroborationScore l.sources_count + 15 * queryMatchScore l req

/-- Stop condition of `pollRunStatus` in SearchResultsPage.tsx: the
polling and timer intervals are cleared exactly when the received run
status is completed or failed. -/
def shouldStopPolling (status : String) : Bool :=
  status == "completed" || status == "failed"

/-- The terminal statuses of the spec's run state machine, as strings. -/
def terminalStatusStrings : List String :=
  ["completed", "failed", "cancelled"]

/-- Client-side lead record, embedded from the `Lead` interface of
SearchResultsPage.tsx. -/
structure Lead where
  id : String
  company_name : String
  phone : Option String
  email : Option String
  website : Option String
  address_line : Option String
  city : Option String
  region : Option String
  country : Option String
  category : Option String
  quality_score : Int
  confidence_score : Int
  phone_validated : Option Bool
  email_validated : Option Bool
  website_validated : Option Bool
  alternative_phones : List String
  sources_count : Nat
deriving DecidableEq, Repr

/-- JavaScript `x || 0` on an integer: zero stays zero, anything else is
itself. -/
def jsOr0 (x : Int) : Int := if x = 0 then 0 else x

/-- The `filteredLeads` computation of SearchResultsPage.tsx: leads
whose (zero-coalesced) quality score is at least the selected minimum
quality. -/
def filteredLeads (leads : List Lead) (minQuality : Int) : List Lead :=
  leads.filter (fun l => decide (minQuality ≤ jsOr0 l.quality_score))

/-- Export format union of `handleExport` in SearchResultsPage.tsx. -/
inductive ExportFormat where
  | csv
  | excel
deriving DecidableEq, Repr

/-- Body of the export request as built by `handleExport` in
SearchResultsPage.tsx: the chosen format and the selected minimum
quality rescaled from the 0-100 scale to a fraction. -/
structure ExportParams where
  format : ExportFormat
  min_quality : ℚ
deriving DecidableEq, Repr

/-- The request parameters `handleExport` posts to the export endpoint. -/
def exportParams (format : ExportFormat) (minQuality : Int) : ExportParams :=
  { format := format, min_quality := (minQuality : ℚ) / 100 }

/-- Modelled from the spec: the export generator produces its artifact
from the result set filtered by the requested minimum quality (spec
section 6); the generator is a backend module absent from the provided
sources, with lead scores compared on the fractional scale of the
request. -/
def exportRows (leads : List Lead) (p : ExportParams) : List Lead :=
  leads.filter (fun l => decide (p.min_quality ≤ (jsOr0 l.quality_score : ℚ) / 100))

/-- The `SUPPORTED_LANGUAGES` constant of src/frontend/src/i18n/index.ts. -/
def SUPPORTED_LANGUAGES : List String := ["en", "de", "it", "fr"]

/-- First two characters of a string, as JavaScript `slice(0, 2)`. -/
def take2 (s : String) : String := String.mk (s.data.take 2)

/-- First stage of the language detection of `LanguageRedirect`: the
first two characters of the i18next language, falling back to en when
the language is missing or empty. -/
def rawLang : Option String → String
  | none => "en"
  | some s => if take2 s == "" then "en" else take2 s

/-- Language detection of `LanguageRedirect`: the raw detected language
when it is supported, en otherwise. -/
def detectLang (lang : Option String) : String :=
  if SUPPORTED_LANGUAGES.contains (rawLang lang) then rawLang lang else "en"

/-- ASCII lowercase test, as the regex class used by `LanguageRedirect`. -/
def isLowerAscii (c : Char) : Bool :=
  97 ≤ c.toNat && c.toNat ≤ 122

/-- The language-prefix pattern of `LanguageRedirect` in the application
routing source: a leading slash, two ASCII lowercase letters, then
either the end of the path or another slash; returns the two-letter
code. -/
def leadingLangCode : List Char → Option (List Char)
  | s :: a :: b :: rest =>
      if s = '/' ∧ isLowerAscii a ∧ isLowerAscii b ∧ (rest = [] ∨ rest.head? = some '/')
      then some [a, b] else none
  | _ => none

/-- Core of the `LanguageRedirect` target computation, on character
lists: when the path carries a valid supported language prefix, the
prefix is stripped (three characters) and the detected language
prepended; otherwise the detected language is prepended to the path,
with a bare slash collapsed to the empty remainder. -/
def redirectCore (detected : List Char) (path : List Char) : List Char :=
  match leadingLangCode path with
  | some code =>
      if SUPPORTED_LANGUAGES.contains (String.mk code)
      then '/' :: detected ++ path.drop 3
      else '/' :: detected ++ (if path = ['/'] then [] else path)
  | none => '/' :: detected ++ (if path = ['/'] then [] else path)

/-- The redirect target produced by `LanguageRedirect` for a given
i18next language and pathname. -/
def languageRedirect (lang : Option String) (path : String) : String :=
  String.mk (redirectCore (detectLang lang).data path.data)

/-- C1: starting a run with the acting user's credit balance strictly
below the estimated credit cost is refused with the insufficient-credit
error: in the client, `handleCreate` sets the insufficient-credits error
and issues neither the search-creation nor the run-start request for
every estimate and every balance below `estimated_credits`; at the
start-run boundary the operation is rejected with the
insufficient-credit error and the state is unchanged, so no Run record
is created and no debit occurs. -/
theorem c1_insufficient_credit_refusal :
    (∀ (est : SearchEstimate) (user : Option UserInfo),
        creditsOf user < est.estimated_credits →
          handleCreate (some est) user = .insufficientCredits ∧
          createRequests (handleCreate (some est) user) = [] ∧
          createError (handleCreate (some est) user) =
            some "newSearch.errors.insufficientCredits") ∧
    (∀ (s : PipelineState) (cost : Int),
        s.balance < cost →
          startRunOp s cost = (.rejected .insufficientCredits, s)) := by
  constructor
  · intro est user h
    have hc : handleCreate (some est) user = .insufficientCredits := by
      show (if creditsOf user < est.estimated_credits then
        CreateOutcome.insufficientCredits else CreateOutcome.submitted) =
          CreateOutcome.insufficientCredits
      rw [if_pos h]
    exact ⟨hc, by rw [hc]; rfl, by rw [hc]; rfl⟩
  · intro s cost h
    unfold startRunOp
    rw [if_pos h]

/-- C1 witness: the spec scenario of a user with balance 5 and a run
estimated at 20 credits. -/
theorem c1_insufficient_credit_refusal_witness :
    creditsOf (some ⟨5⟩) < (20 : Int) ∧
    handleCreate (some ⟨20, 20, 60, 20, [], "standard"⟩) (some ⟨5⟩) =
      .insufficientCredits ∧
    startRunOp ⟨[], 5, []⟩ 20 = (.rejected .insufficientCredits, ⟨[], 5, []⟩) :=
  ⟨by decide,
   (c1_insufficient_credit_refusal.1 ⟨20, 20, 60, 20, [], "standard"⟩
     (some ⟨5⟩) (by decide)).1,
   c1_insufficient_credit_refusal.2 ⟨[], 5, []⟩ 20 (by decide)⟩

/-- C2: for every Run reaching a terminal state, reconciliation
produces a debit and a refund whose sum equals the reserved amount
exactly, and for a failed run no debit is made (the full reservation is
refunded), so no debit is ever stranded. -/
theorem c2_credit_conservation :
    ∀ (reserved perLeadCost delivered : Nat) (st : RunStatus),
      isTerminal st = true →
        ∃ deb ref, reconcile reserved perLeadCost delivered st = some (deb, ref) ∧
          deb + ref = reserved ∧ deb ≤ reserved ∧
          (st = .failed → deb = 0) := by
  intro reserved c d st hst
  cases st with
  | pending => simp [isTerminal] at hst
  | running => simp [isTerminal] at hst
  | completed =>
      refine ⟨min (d * c) reserved, reserved - min (d * c) reserved, rfl, ?_, ?_, ?_⟩
      · have := Nat.min_le_right (d * c) reserved
        omega
      · exact Nat.min_le_right _ _
      · intro h; cases h
  | failed => exact ⟨0, reserved, rfl, by omega, by omega, fun _ => rfl⟩
  | cancelled =>
      refine ⟨min (d * c) reserved, reserved - min (d * c) reserved, rfl, ?_, ?_, ?_⟩
      · have := Nat.min_le_right (d * c) reserved
        omega
      · exact Nat.min_le_right _ _
      · intro h; cases h

/-- C2 witness: the spec's mid-run-cancellation scenario - a 20-credit
reservation, 2 credits per lead, 6 of 10 target leads delivered, run
cancelled: 12 debited, 8 refunded. -/
theorem c2_credit_conservation_witness :
    isTerminal .cancelled = true ∧
    reconcile 20 2 6 .cancelled = some (12, 8) ∧
    (∃ deb ref, reconcile 20 2 6 .cancelled = some (deb, ref) ∧
      deb + ref = 20 ∧ deb ≤ 20 ∧ (RunStatus.cancelled = .failed → deb = 0)) :=
  ⟨by decide, by decide, c2_credit_conservation 20 2 6 .cancelled (by decide)⟩

/-- C3: every Run status is one of the five enumerated values, which are
exactly the keys the client's `statusConfig` handles; transitions follow
pending to running to a terminal state, and no transition leaves a
terminal state. -/
theorem c3_status_machine :
    (statusConfig.map Prod.fst =
      ["pending", "running", "completed", "failed", "cancelled"]) ∧
    (∀ s : RunStatus, runStatusString s ∈ statusConfig.map Prod.fst) ∧
    (∀ (s : RunStatus) (e : RunEvent) (t : RunStatus),
        step s e = some t → isTerminal s = false) ∧
    (∀ (s : RunStatus) (e : RunEvent) (t : RunStatus),
        step s e = some t →
          (s = .pending ∧ t = .running) ∨ (s = .running ∧ isTerminal t = true)) :=
  ⟨by decide, by decide, by decide, by decide⟩

/-- C3 witness: the start transition out of pending, a non-terminal
state. -/
theorem c3_status_machine_witness :
    step .pending .start = some .running ∧ isTerminal .pending = false :=
  ⟨by decide, c3_status_machine.2.2.1 .pending .start .running (by decide)⟩

/-- C4: a request to start a Run while one is already running is
rejected synchronously with the state unchanged - nothing is queued and
nothing double-executes - and any successful start leaves the Search
with exactly one running Run, starting from none. -/
theorem c4_single_active_run :
    (∀ (s : PipelineState) (cost : Int),
        s.runs.contains .running = true →
          ∃ e, startRunOp s cost = (.rejected e, s)) ∧
    (∀ (s : PipelineState) (cost : Int) (out : PipelineState),
        startRunOp s cost = (.started, out) →
          s.runs.count .running = 0 ∧ out.runs.count .running = 1) := by
  constructor
  · intro s cost h
    by_cases hb : s.balance < cost
    · exact ⟨.insufficientCredits, by unfold startRunOp; rw [if_pos hb]⟩
    · exact ⟨.alreadyRunning, by unfold startRunOp; rw [if_neg hb, if_pos h]⟩
  · intro s cost out h
    unfold startRunOp at h
    split at h
    · cases h
    · split at h
      · cases h
      · rename_i hbal hrun
        have hmem : RunStatus.running ∉ s.runs := by
          intro hm
          exact hrun (by simpa using hm)
        have hzero : s.runs.count .running = 0 := List.count_eq_zero.mpr hmem
        have hout : out = ⟨s.runs ++ [.running], s.balance - cost,
            s.ledger ++ [⟨-cost, s.balance - cost, .search⟩]⟩ := by
          cases h; rfl
        refine ⟨hzero, ?_⟩
        rw [hout]
        simp [List.count_append, hzero]

/-- C4 witness: a Search with a running Run rejects a new start, and a
successful start from an idle Search yields exactly one running Run. -/
theorem c4_single_active_run_witness :
    (([RunStatus.running] : List RunStatus).contains .running = true ∧
      ∃ e, startRunOp ⟨[.running], 100, []⟩ 10 =
        (.rejected e, ⟨[.running], 100, []⟩)) ∧
    (startRunOp ⟨[], 100, []⟩ 10 =
        (.started, ⟨[.running], 90, [⟨-10, 90, .search⟩]⟩) ∧
      ([] : List RunStatus).count .running = 0 ∧
      ([RunStatus.running] : List RunStatus).count .running = 1) :=
  ⟨⟨by decide, c4_single_active_run.1 ⟨[.running], 100, []⟩ 10 (by decide)⟩,
   ⟨by decide, c4_single_active_run.2 ⟨[], 100, []⟩ 10
      ⟨[.running], 90, [⟨-10, 90, .search⟩]⟩ (by decide)⟩⟩

/-- When no lead of the list satisfies the predicate, `mergeFirst`
merges nothing. -/
theorem mergeFirst_eq_none {p : LeadRecord → Bool} {c : CandidateRecord} :
    ∀ {leads : List LeadRecord}, (∀ l ∈ leads, p l = false) →
      mergeFirst p c leads = none := by
  intro leads
  induction leads with
  | nil => intro _; rfl
  | cons l ls ih =>
      intro h
      unfold mergeFirst
      rw [h l (by simp), ih (fun x hx => h x (by simp [hx]))]
      rfl

/-- A candidate matching no existing lead is appended as a fresh lead. -/
theorem dedupStep_no_match {leads : List LeadRecord} {c : CandidateRecord}
    (h : ∀ l ∈ leads, leadMatches l c = false) :
    dedupStep leads c = leads ++ [newLead c] := by
  have hw : ∀ l ∈ leads, websiteMatch l c = false := by
    intro l hl
    have := h l hl
    simp only [leadMatches, Bool.or_eq_false_iff] at this
    exact this.1.1
  have hp : ∀ l ∈ leads, phoneMatch l c = false := by
    intro l hl
    have := h l hl
    simp only [leadMatches, Bool.or_eq_false_iff] at this
    exact this.1.2
  have hn : ∀ l ∈ leads, nameCityMatch l c = false := by
    intro l hl
    have := h l hl
    simp only [leadMatches, Bool.or_eq_false_iff] at this
    exact this.2
  unfold dedupStep
  rw [mergeFirst_eq_none hw, mergeFirst_eq_none hp, mergeFirst_eq_none hn]

/-- Folding a stream of pairwise-unmatched candidates over an
accumulator of fresh leads of unmatched candidates never merges: every
candidate lands as its own fresh lead. -/
theorem foldl_dedup_no_merge :
    ∀ (cs ds : List CandidateRecord),
      (∀ d ∈ ds, ∀ c ∈ cs, candMatch d c = false) →
      List.Pairwise (fun a b => candMatch a b = false) cs →
      List.foldl dedupStep (ds.map newLead) cs = (ds ++ cs).map newLead := by
  intro cs
  induction cs with
  | nil => intro ds _ _; simp
  | cons c rest ih =>
      intro ds hds hp
      have hstep : dedupStep (ds.map newLead) c = ds.map newLead ++ [newLead c] := by
        apply dedupStep_no_match
        intro l hl
        obtain ⟨d, hd, rfl⟩ := List.mem_map.mp hl
        exact hds d hd c (by simp)
      have hacc : ds.map newLead ++ [newLead c] = (ds ++ [c]).map newLead := by
        simp
      rw [List.foldl_cons, hstep, hacc,
        ih (ds ++ [c]) ?_ (List.Pairwise.of_cons hp)]
      · simp
      · intro d hd x hx
        rcases List.mem_append.mp hd with h1 | h1
        · exact hds d h1 x (by simp [hx])
        · have : d = c := by simpa using h1
          subst this
          exact (List.pairwise_cons.mp hp).1 x hx

/-- With no matching pair among the candidates, the dedup engine returns
one fresh lead per candidate, in input order. -/
theorem dedup_no_merge {cs : List CandidateRecord}
    (hp : List.Pairwise (fun a b => candMatch a b = false) cs) :
    dedup cs = cs.map newLead := by
  have h := foldl_dedup_no_merge cs [] (by simp) hp
  simpa [dedup] using h

/-- Lead lists whose canonical identities are permutations of each other
represent the same lead set. -/
theorem sameLeadSet_of_perm {xs ys : List LeadRecord}
    (h : (xs.map canonicalId).Perm (ys.map canonicalId)) :
    sameLeadSet xs ys = true := by
  unfold sameLeadSet
  simp only [Bool.and_eq_true, List.all_eq_true]
  constructor
  · intro i hi
    simpa using h.mem_iff.mp (by simpa using hi)
  · intro i hi
    simpa using h.mem_iff.mpr (by simpa using hi)

/-- Candidate observed with a website and no phone, used to exhibit the
order-dependence of the dedup fold. -/
def cexA : CandidateRecord :=
  { name := "alpha", phone := none, email := none, website := some "w.com",
    address_line := none, city := some "x", region := none, country := none,
    category := none, description := none, source := "s1" }

/-- Candidate sharing cexA's website and carrying a phone. -/
def cexB : CandidateRecord :=
  { name := "beta", phone := some "+391", email := none, website := some "w.com",
    address_line := none, city := some "y", region := none, country := none,
    category := none, description := none, source := "s2" }

/-- Candidate sharing cexB's phone and carrying no website. -/
def cexC : CandidateRecord :=
  { name := "gamma", phone := some "+391", email := none, website := none,
    address_line := none, city := some "z", region := none, country := none,
    category := none, description := none, source := "s3" }

/-- C5 counterexample: two permutations of the same three candidates for
which the dedup fold yields different lead sets by canonical identity.
In the order cexA, cexB, cexC the website match folds cexB into cexA's
lead, filling its phone, and cexC then folds in by phone - one lead. In
the order cexC, cexA, cexB the candidate cexA matches nothing, so cexC
and cexA stay separate leads and cexB folds into cexA's lead by website
- two leads. -/
theorem c5_dedup_order_dependence :
    ([cexA, cexB, cexC] : List CandidateRecord).Perm [cexC, cexA, cexB] ∧
    sameLeadSet (dedup [cexA, cexB, cexC]) (dedup [cexC, cexA, cexB]) = false := by
  exact ⟨by decide, by decide⟩

/-- C5 amended: the dedup fold is order-independent on candidate sets in
which no two candidates match on any dedup key - each permutation then
yields the same lead set by canonical identity; for general candidate
sets the grouping can depend on input order, because a merge can fill a
match key that a later candidate then matches (see the counterexample). -/
theorem c5_dedup_commutative_unmatched :
    ∀ (cs cs' : List CandidateRecord), cs.Perm cs' → pairwiseUnmatched cs →
      sameLeadSet (dedup cs) (dedup cs') = true := by
  intro cs cs' hperm hp
  have hsymm : ∀ {a b : CandidateRecord},
      (candMatch a b = false ∧ candMatch b a = false) →
      (candMatch b a = false ∧ candMatch a b = false) :=
    fun h => ⟨h.2, h.1⟩
  have hp' : pairwiseUnmatched cs' := (hperm.pairwise_iff hsymm).mp hp
  rw [dedup_no_merge (hp.imp fun h => h.1), dedup_no_merge (hp'.imp fun h => h.1)]
  exact sameLeadSet_of_perm ((hperm.map newLead).map canonicalId)

/-- C5 amended witness: two unmatched candidates in both orders yield
the same lead set. -/
theorem c5_dedup_commutative_unmatched_witness :
    ([cexA, cexC] : List CandidateRecord).Perm [cexC, cexA] ∧
    pairwiseUnmatched [cexA, cexC] ∧
    sameLeadSet (dedup [cexA, cexC]) (dedup [cexC, cexA]) = true :=
  ⟨by decide, by unfold pairwiseUnmatched; decide,
   c5_dedup_commutative_unmatched [cexA, cexC] [cexC, cexA] (by decide)
     (by unfold pairwiseUnmatched; decide)⟩

/-- C6: merging a further candidate never changes a populated scalar
field of a LeadRecord - phone, email, website, address line, city,
region, country, category, description and a non-empty name are all
preserved; a distinct new phone accumulates into `alternative_phones`,
which stays duplicate-free. -/
theorem c6_fill_only_if_empty :
    (∀ (l : LeadRecord) (c : CandidateRecord) (v : String),
        l.phone = some v → (mergeInto l c).phone = some v) ∧
    (∀ (l : LeadRecord) (c : CandidateRecord) (v : String),
        l.email = some v → (mergeInto l c).email = some v) ∧
    (∀ (l : LeadRecord) (c : CandidateRecord) (v : String),
        l.website = some v → (mergeInto l c).website = some v) ∧
    (∀ (l : LeadRecord) (c : CandidateRecord) (v : String),
        l.address_line = some v → (mergeInto l c).address_line = some v) ∧
    (∀ (l : LeadRecord) (c : CandidateRecord) (v : String),
        l.city = some v → (mergeInto l c).city = some v) ∧
    (∀ (l : LeadRecord) (c : CandidateRecord) (v : String),
        l.region = some v → (mergeInto l c).region = some v) ∧
    (∀ (l : LeadRecord) (c : CandidateRecord) (v : String),
        l.country = some v → (mergeInto l c).country = some v) ∧
    (∀ (l : LeadRecord) (c : CandidateRecord) (v : String),
        l.category = some v → (mergeInto l c).category = some v) ∧
    (∀ (l : LeadRecord) (c : CandidateRecord) (v : String),
        l.description = some v → (mergeInto l c).description = some v) ∧
    (∀ (l : LeadRecord) (c : CandidateRecord),
        l.name ≠ "" → (mergeInto l c).name = l.name) ∧
    (∀ (l : LeadRecord) (c : CandidateRecord),
        l.alternative_phones.Nodup →
          (mergeInto l c).alternative_phones.Nodup) ∧
    (∀ (l : LeadRecord) (c : CandidateRecord) (p q : String),
        l.phone = some p → c.phone = some q → q ≠ p →
        q ∉ l.alternative_phones →
          (mergeInto l c).alternative_phones =
            l.alternative_phones ++ [q]) := by
  refine ⟨?_, ?_, ?_, ?_, ?_, ?_, ?_, ?_, ?_, ?_, ?_, ?_⟩
  · intro l c v h; simp [mergeInto, fillIfEmpty, h]
  · intro l c v h; simp [mergeInto, fillIfEmpty, h]
  · intro l c v h; simp [mergeInto, fillIfEmpty, h]
  · intro l c v h; simp [mergeInto, fillIfEmpty, h]
  · intro l c v h; simp [mergeInto, fillIfEmpty, h]
  · intro l c v h; simp [mergeInto, fillIfEmpty, h]
  · intro l c v h; simp [mergeInto, fillIfEmpty, h]
  · intro l c v h; simp [mergeInto, fillIfEmpty, h]
  · intro l c v h; simp [mergeInto, fillIfEmpty, h]
  · intro l c h
    have hb : (l.name == "") = false := by
      simpa using h
    simp [mergeInto, hb]
  · intro l c h
    show (match l.phone, c.phone with
      | some p, some q =>
          if q ≠ p ∧ ¬ l.alternative_phones.contains q
          then l.alternative_phones ++ [q]
          else l.alternative_phones
      | _, _ => l.alternative_phones).Nodup
    cases hl : l.phone with
    | none => exact h
    | some p =>
        cases hc : c.phone with
        | none => exact h
        | some q =>
            show (if q ≠ p ∧ ¬ l.alternative_phones.contains q
              then l.alternative_phones ++ [q]
              else l.alternative_phones).Nodup
            by_cases hq : q ≠ p ∧ ¬ l.alternative_phones.contains q
            · rw [if_pos hq]
              have hnm : q ∉ l.alternative_phones := by
                intro hm
                exact hq.2 (by simpa using hm)
              simp [List.nodup_append, h, hnm]
            · rw [if_neg hq]; exact h
  · intro l c p q hp hq hne hnm
    show (match l.phone, c.phone with
      | some p, some q =>
          if q ≠ p ∧ ¬ l.alternative_phones.contains q
          then l.alternative_phones ++ [q]
          else l.alternative_phones
      | _, _ => l.alternative_phones) = l.alternative_phones ++ [q]
    rw [hp, hq]
    show (if q ≠ p ∧ ¬ l.alternative_phones.contains q
      then l.alternative_phones ++ [q]
      else l.alternative_phones) = l.alternative_phones ++ [q]
    rw [if_pos ⟨hne, by simpa using hnm⟩]

/-- C6 witness: a lead with a populated phone merged with a candidate
carrying a different phone keeps its phone and accumulates the new one. -/
theorem c6_fill_only_if_empty_witness :
    (({ name := "alpha", phone := some "+391", alternative_phones := [],
        email := none, website := none, address_line := none,
        city := none, region := none, country := none, category := none,
        description := none, phone_validated := none,
        email_validated := none, website_validated := none,
        sources := ["s1"], sources_count := 1 } : LeadRecord).phone
      = some "+391") ∧
    (mergeInto
      { name := "alpha", phone := some "+391", alternative_phones := [],
        email := none, website := none, address_line := none,
        city := none, region := none, country := none, category := none,
        description := none, phone_validated := none,
        email_validated := none, website_validated := none,
        sources := ["s1"], sources_count := 1 } cexB).phone = some "+391" :=
  ⟨rfl,
   c6_fill_only_if_empty.1
     { name := "alpha", phone := some "+391", alternative_phones := [],
       email := none, website := none, address_line := none,
       city := none, region := none, country := none, category := none,
       description := none, phone_validated := none,
       email_validated := none, website_validated := none,
       sources := ["s1"], sources_count := 1 } cexB "+391" rfl⟩

/-- Presence weights are nonnegative for nonnegative base weights. -/
theorem presentWeight_nonneg (b : Bool) (w : ℚ) (hw : 0 ≤ w) :
    0 ≤ presentWeight b w := by
  unfold presentWeight
  split
  · exact hw
  · exact le_refl 0

/-- Presence weights are bounded by the base weight. -/
theorem presentWeight_le (b : Bool) (w : ℚ) (hw : 0 ≤ w) :
    presentWeight b w ≤ w := by
  unfold presentWeight
  split
  · exact le_refl w
  · exact hw

/-- The completeness sub-score lies in the unit interval. -/
theorem completeness_bounds (l : LeadRecord) :
    0 ≤ completeness l ∧ completeness l ≤ 1 := by
  unfold completeness
  have h1a := presentWeight_nonneg (l.name != "") 20 (by norm_num)
  have h1b := presentWeight_le (l.name != "") 20 (by norm_num)
  have h2a := presentWeight_nonneg l.phone.isSome 20 (by norm_num)
  have h2b := presentWeight_le l.phone.isSome 20 (by norm_num)
  have h3a := presentWeight_nonneg l.email.isSome 15 (by norm_num)
  have h3b := presentWeight_le l.email.isSome 15 (by norm_num)
  have h4a := presentWeight_nonneg l.website.isSome 15 (by norm_num)
  have h4b := presentWeight_le l.website.isSome 15 (by norm_num)
  have h5a := presentWeight_nonneg l.address_line.isSome 10 (by norm_num)
  have h5b := presentWeight_le l.address_line.isSome 10 (by norm_num)
  have h6a := presentWeight_nonneg l.city.isSome 10 (by norm_num)
  have h6b := presentWeight_le l.city.isSome 10 (by norm_num)
  have h7a := presentWeight_nonneg l.category.isSome 5 (by norm_num)
  have h7b := presentWeight_le l.category.isSome 5 (by norm_num)
  have h8a := presentWeight_nonneg l.description.isSome 5 (by norm_num)
  have h8b := presentWeight_le l.description.isSome 5 (by norm_num)
  constructor
  · apply div_nonneg _ (by norm_num)
    linarith
  · rw [div_le_one (by norm_num)]
    linarith

/-- Every validation flag scores within the unit interval. -/
theorem flagScore_bounds (o : Option Bool) :
    0 ≤ flagScore o ∧ flagScore o ≤ 1 := by
  cases o with
  | none => constructor <;> norm_num [flagScore]
  | some b => cases b <;> constructor <;> norm_num [flagScore]

/-- The validation sub-score lies in the unit interval at every tier. -/
theorem validationScore_bounds (l : LeadRecord) (tier : QualityTier) :
    0 ≤ validationScore l tier ∧ validationScore l tier ≤ 1 := by
  have hp := flagScore_bounds l.phone_validated
  have he := flagScore_bounds l.email_validated
  have hw := flagScore_bounds l.website_validated
  cases tier with
  | basic =>
      unfold validationScore applicableFlags
      simp only [List.map_cons, List.map_nil, List.sum_cons, List.sum_nil,
        List.length_cons, List.length_nil]
      constructor
      · apply div_nonneg _ (by norm_num)
        linarith [hp.1, he.1]
      · rw [div_le_one (by norm_num)]
        push_cast
        linarith [hp.2, he.2]
  | standard =>
      unfold validationScore applicableFlags
      simp only [List.map_cons, List.map_nil, List.sum_cons, List.sum_nil,
        List.length_cons, List.length_nil]
      constructor
      · apply div_nonneg _ (by norm_num)
        linarith [hp.1, he.1, hw.1]
      · rw [div_le_one (by norm_num)]
        push_cast
        linarith [hp.2, he.2, hw.2]
  | premium =>
      unfold validationScore applicableFlags
      simp only [List.map_cons, List.map_nil, List.sum_cons, List.sum_nil,
        List.length_cons, List.length_nil]
      constructor
      · apply div_nonneg _ (by norm_num)
        linarith [hp.1, he.1, hw.1]
      · rw [div_le_one (by norm_num)]
        push_cast
        linarith [hp.2, he.2, hw.2]

/-- The corroboration sub-score lies in the unit interval. -/
theorem corroborationScore_bounds (n : Nat) :
    0 ≤ corroborationScore n ∧ corroborationScore n ≤ 1 := by
  unfold corroborationScore
  constructor
  · apply div_nonneg _ (by norm_num)
    exact_mod_cast Nat.zero_le _
  · rw [div_le_one (by norm_num)]
    exact_mod_cast Nat.min_le_right n 4

/-- The query-match sub-score lies in the unit interval. -/
theorem queryMatchScore_bounds (l : LeadRecord) (req : SearchRequest) :
    0 ≤ queryMatchScore l req ∧ queryMatchScore l req ≤ 1 := by
  unfold queryMatchScore
  dsimp only
  by_cases hex :
      (req.keywords_exclude.any fun k => (leadTerms l).contains (normToken k)) = true
  · rw [if_pos hex]
    constructor <;> norm_num
  · rw [if_neg hex]
    constructor
    · apply div_nonneg _ _
      · exact_mod_cast Nat.zero_le _
      · exact_mod_cast Nat.zero_le _
    · have hlen : (((req.categories ++ req.keywords_include).map normToken).filter
          ((leadTerms l).contains ·)).length ≤
          max 1 ((req.categories ++ req.keywords_include).map normToken).length := by
        exact le_trans (List.length_filter_le _ _) (le_max_right 1 _)
      have hpos : (0 : ℚ) <
          ((max 1 ((req.categories ++ req.keywords_include).map normToken).length : Nat) : ℚ) := by
        have : (1 : Nat) ≤ max 1 ((req.categories ++ req.keywords_include).map normToken).length :=
          le_max_left 1 _
        exact_mod_cast Nat.lt_of_lt_of_le Nat.zero_lt_one this
      rw [div_le_one hpos]
      exact_mod_cast hlen

/-- C7: the quality score is bounded to the interval 0 to 100 for every
lead and request, and scoring is a pure function - the same inputs give
the same output. -/
theorem c7_score_bounded_pure :
    ∀ (l : LeadRecord) (req : SearchRequest),
      0 ≤ score l req ∧ score l req ≤ 100 ∧ score l req = score l req := by
  intro l req
  have hc := completeness_bounds l
  have hv := validationScore_bounds l req.quality_tier
  have hs := corroborationScore_bounds l.sources_count
  have hq := queryMatchScore_bounds l req
  unfold score
  refine ⟨?_, ?_, rfl⟩
  · linarith [hc.1, hv.1, hs.1, hq.1]
  · linarith [hc.2, hv.2, hs.2, hq.2]

/-- C8 counterexample: cancelled is a terminal run status, yet the stop
condition of `pollRunStatus` in SearchResultsPage.tsx does not fire on
it, so the client keeps polling a cancelled run. -/
theorem c8_cancelled_keeps_polling :
    shouldStopPolling "cancelled" = false ∧
    "cancelled" ∈ terminalStatusStrings := by
  exact ⟨by decide, by decide⟩

/-- C8 amended: the results-page client stops polling exactly when the
received run status is completed or failed; a cancelled status - though
terminal - does not stop the poll loop. -/
theorem c8_stop_iff_completed_or_failed :
    ∀ s : String, shouldStopPolling s = true ↔ (s = "completed" ∨ s = "failed") := by
  intro s
  unfold shouldStopPolling
  simp

/-- C9: the fetched result list shown to the user consists of exactly
the loaded leads whose quality score is at least the selected minimum
quality, and the export request carries the chosen format together with
that same minimum quality (rescaled to a fraction), so the export
artifact is produced from the same filtered result set. -/
theorem c9_filter_and_export :
    ∀ (leads : List Lead) (q : Int) (fmt : ExportFormat),
      (∀ l : Lead, l ∈ filteredLeads leads q ↔ (l ∈ leads ∧ q ≤ l.quality_score)) ∧
      (exportParams fmt q).format = fmt ∧
      (exportParams fmt q).min_quality = (q : ℚ) / 100 ∧
      exportRows leads (exportParams fmt q) = filteredLeads leads q := by
  intro leads q fmt
  have hjs : ∀ x : Int, jsOr0 x = x := by
    intro x
    unfold jsOr0
    split
    · omega
    · rfl
  refine ⟨?_, rfl, rfl, ?_⟩
  · intro l
    simp [filteredLeads, hjs, List.mem_filter]
  · unfold exportRows filteredLeads exportParams
    apply List.filter_congr
    intro l _
    simp only [decide_eq_decide]
    rw [div_le_div_iff_of_pos_right (by norm_num)]
    exact_mod_cast Iff.rfl

/-- Inversion of the language-prefix pattern: a successful match
exposes the leading slash, the two lowercase letters, and the
slash-or-end condition on the remainder. -/
theorem leadingLangCode_some {path code : List Char}
    (h : leadingLangCode path = some code) :
    ∃ a b rest, path = '/' :: a :: b :: rest ∧ code = [a, b] ∧
      isLowerAscii a = true ∧ isLowerAscii b = true ∧
      (rest = [] ∨ rest.head? = some '/') := by
  match path with
  | [] => exact absurd h (by simp [leadingLangCode])
  | [x] => exact absurd h (by simp [leadingLangCode])
  | [x, y] => exact absurd h (by simp [leadingLangCode])
  | x :: y :: z :: rest =>
      have h' : (if x = '/' ∧ isLowerAscii y = true ∧ isLowerAscii z = true ∧
          (rest = [] ∨ rest.head? = some '/')
        then some [y, z] else none) = some code := h
      split_ifs at h' with hc
      obtain ⟨h1, h2, h3, h4⟩ := hc
      cases h'
      exact ⟨y, z, rest, by rw [h1], rfl, h2, h3, h4⟩

/-- The detected language is always a supported language. -/
theorem detectLang_mem (lang : Option String) :
    detectLang lang ∈ SUPPORTED_LANGUAGES := by
  unfold detectLang
  split
  · rename_i h
    simpa using h
  · decide

/-- Every supported language is a two-character lowercase code whose
string passes the supported-list check. -/
theorem supported_shape :
    ∀ s ∈ SUPPORTED_LANGUAGES, ∃ a b, s.data = [a, b] ∧
      isLowerAscii a = true ∧ isLowerAscii b = true ∧
      SUPPORTED_LANGUAGES.contains (String.mk [a, b]) = true := by
  intro s hs
  fin_cases hs
  · exact ⟨'e', 'n', by decide, by decide, by decide, by decide⟩
  · exact ⟨'d', 'e', by decide, by decide, by decide, by decide⟩
  · exact ⟨'i', 't', by decide, by decide, by decide, by decide⟩
  · exact ⟨'f', 'r', by decide, by decide, by decide, by decide⟩

/-- For a detected two-letter lowercase code and a path beginning with a
slash, the redirect target is the slash, the code, and a remainder that
is empty or begins with a slash. -/
theorem redirectCore_shape (a b : Char) (ha : isLowerAscii a = true)
    (hb : isLowerAscii b = true) (path : List Char)
    (h : path.head? = some '/') :
    ∃ rest, redirectCore [a, b] path = '/' :: a :: b :: rest ∧
      (rest = [] ∨ rest.head? = some '/') := by
  unfold redirectCore
  cases hl : leadingLangCode path with
  | some code =>
      obtain ⟨x, y, r, hpath, hcode, hx, hy, hr⟩ := leadingLangCode_some hl
      by_cases hc : SUPPORTED_LANGUAGES.contains (String.mk code) = true
      · refine ⟨r, ?_, hr⟩
        show (if SUPPORTED_LANGUAGES.contains (String.mk code) = true
          then '/' :: [a, b] ++ path.drop 3
          else '/' :: [a, b] ++ (if path = ['/'] then [] else path)) =
            '/' :: a :: b :: r
        rw [if_pos hc, hpath]
        simp
      · have hp : path ≠ ['/'] := by
          rw [hpath]; simp
        refine ⟨path, ?_, Or.inr h⟩
        show (if SUPPORTED_LANGUAGES.contains (String.mk code) = true
          then '/' :: [a, b] ++ path.drop 3
          else '/' :: [a, b] ++ (if path = ['/'] then [] else path)) =
            '/' :: a :: b :: path
        rw [if_neg hc, if_neg hp]
        simp
  | none =>
      by_cases hp : path = ['/']
      · refine ⟨[], ?_, Or.inl rfl⟩
        show '/' :: [a, b] ++ (if path = ['/'] then [] else path) =
          '/' :: a :: b :: []
        rw [if_pos hp]
        simp
      · refine ⟨path, ?_, Or.inr h⟩
        show '/' :: [a, b] ++ (if path = ['/'] then [] else path) =
          '/' :: a :: b :: path
        rw [if_neg hp]
        simp

/-- A path of the redirect-target shape carries its leading code as a
valid language prefix. -/
theorem leadingLangCode_of_shape (a b : Char) (ha : isLowerAscii a = true)
    (hb : isLowerAscii b = true) (rest : List Char)
    (hr : rest = [] ∨ rest.head? = some '/') :
    leadingLangCode ('/' :: a :: b :: rest) = some [a, b] := by
  show (if ('/' : Char) = '/' ∧ isLowerAscii a = true ∧ isLowerAscii b = true ∧
      (rest = [] ∨ rest.head? = some '/')
    then some [a, b] else none) = some [a, b]
  rw [if_pos ⟨rfl, ha, hb, hr⟩]

/-- Redirecting a redirect target changes nothing: the supported code in
front is stripped and the same detected code put back. -/
theorem redirectCore_idem (a b : Char) (ha : isLowerAscii a = true)
    (hb : isLowerAscii b = true)
    (hsup : SUPPORTED_LANGUAGES.contains (String.mk [a, b]) = true)
    (path : List Char) (h : path.head? = some '/') :
    redirectCore [a, b] (redirectCore [a, b] path) = redirectCore [a, b] path := by
  obtain ⟨rest, heq, hr⟩ := redirectCore_shape a b ha hb path h
  rw [heq]
  unfold redirectCore
  rw [leadingLangCode_of_shape a b ha hb rest hr]
  show (if SUPPORTED_LANGUAGES.contains (String.mk [a, b]) = true
    then '/' :: [a, b] ++ ('/' :: a :: b :: rest).drop 3
    else '/' :: [a, b] ++
      (if ('/' :: a :: b :: rest) = ['/'] then [] else '/' :: a :: b :: rest)) =
      '/' :: a :: b :: rest
  rw [if_pos hsup]
  simp

/-- C10 counterexample: for the detected language de and the pathname
"/de/en/x" - which already begins with consecutive supported language
segments - the redirect target equals the input and still contains the
doubled language prefix de, en, contradicting the claim that the target
never contains a doubled language prefix. -/
theorem c10_doubled_language_code :
    languageRedirect (some "de") "/de/en/x" = "/de/en/x" ∧
    leadingLangCode (languageRedirect (some "de") "/de/en/x").data =
      some ("de".data) ∧
    leadingLangCode ((languageRedirect (some "de") "/de/en/x").data.drop 3) =
      some ("en".data) ∧
    ("de" ∈ SUPPORTED_LANGUAGES ∧ "en" ∈ SUPPORTED_LANGUAGES) := by
  exact ⟨by decide, by decide, by decide, by decide, by decide⟩

/-- C10 amended: for every pathname beginning with a slash, the redirect
target begins with a slash followed by the detected supported two-letter
language code (a valid prefix already present is stripped first), and
the redirect is idempotent - redirecting its own target reproduces it -
so repeated redirects cannot accumulate language prefixes; a doubled
language segment already present in the remainder of the input pathname
can, however, persist in the target. -/
theorem c10_redirect_single_code_idempotent :
    ∀ (lang : Option String) (path : String), path.data.head? = some '/' →
      leadingLangCode (languageRedirect lang path).data =
        some (detectLang lang).data ∧
      detectLang lang ∈ SUPPORTED_LANGUAGES ∧
      languageRedirect lang (languageRedirect lang path) =
        languageRedirect lang path := by
  intro lang path h
  have hmem := detectLang_mem lang
  obtain ⟨a, b, hdata, ha, hb, hsup⟩ := supported_shape _ hmem
  have hred : languageRedirect lang path =
      String.mk (redirectCore [a, b] path.data) := by
    unfold languageRedirect
    rw [hdata]
  refine ⟨?_, hmem, ?_⟩
  · rw [hred, hdata]
    obtain ⟨rest, heq, hr⟩ := redirectCore_shape a b ha hb path.data h
    show leadingLangCode (redirectCore [a, b] path.data) = some [a, b]
    rw [heq]
    exact leadingLangCode_of_shape a b ha hb rest hr
  · rw [hred]
    unfold languageRedirect
    rw [hdata]
    show String.mk (redirectCore [a, b] (redirectCore [a, b] path.data)) =
      String.mk (redirectCore [a, b] path.data)
    rw [redirectCore_idem a b ha hb hsup path.data h]

/-- C10 amended witness: the dashboard path redirected for the Italian
language. -/
theorem c10_redirect_single_code_idempotent_witness :
    ("/searches/5" : String).data.head? = some '/' ∧
    languageRedirect (some "it") (languageRedirect (some "it") "/searches/5") =
      languageRedirect (some "it") "/searches/5" :=
  ⟨by decide,
   (c10_redirect_single_code_idempotent (some "it") "/searches/5" (by decide)).2.2⟩

end Scripe
